import Mathlib

/-
Verification of the client-side balance/event/chat coordination layer of the
Image-Processing-AI-x-Blockchain repository.

The TypeScript services are shallowly embedded as pure Lean functions over an
explicit system state.  JavaScript numbers are modelled as rationals, the
browser localStorage as an association list from string keys to typed JSON
values, and every service mutation is explicit state passing.  Event emission
(EventManager.emit) is modelled, for the service-state theorems, as appending
the emitted event to an event log: the listeners registered by the UI only
re-read service state, so emission never feeds back into service state.  The
EventManager listener registry itself (on / once / emit) is modelled
separately for the pub/sub claims.
-/

namespace ImgProc

/-- JavaScript `number` values (balances, costs, coordinates) are modelled as
rationals; the code only adds, subtracts and compares them. -/
abbrev Num := ℚ

/-- The `User` interface from src/types: token and coin balances. -/
structure User where
  tokenBalance : Num
  coinBalance : Num
deriving DecidableEq, Repr

/-- DEFAULT_USER from src/constants/index.ts. -/
def DEFAULT_USER : User := { tokenBalance := 1000, coinBalance := 500 }

/-- ERROR_MESSAGES.INSUFFICIENT_BALANCE from src/constants/index.ts. -/
def INSUFFICIENT_BALANCE : String := "Insufficient balance"

/-- Message author kind: the `'user' | 'bot'` union in the Message interface. -/
inductive MsgType where
  | user
  | bot
deriving DecidableEq, Repr

/-- The plain `Message` interface from src/types (the JSON shape).
Timestamps (`Date`) are modelled as integer milliseconds; JSON
serialization round-trips them exactly. -/
structure MessageData where
  id : String
  type : MsgType
  content : String
  timestamp : Int
  imageUrl : Option String
  processing : Option Bool
deriving DecidableEq, Repr

/-- The `Message` model class from src/models/Message.ts (same fields as the
interface; the class constructor copies them). -/
structure Message where
  id : String
  type : MsgType
  content : String
  timestamp : Int
  imageUrl : Option String
  processing : Option Bool
deriving DecidableEq, Repr

/-- Message class constructor: `new Message(data)` copies every field
(`new Date(data.timestamp)` is the identity on the modelled instant). -/
def Message.ofData (d : MessageData) : Message :=
  { id := d.id, type := d.type, content := d.content, timestamp := d.timestamp,
    imageUrl := d.imageUrl, processing := d.processing }

/-- Message.toJSON from src/models/Message.ts. -/
def Message.toJSON (m : Message) : MessageData :=
  { id := m.id, type := m.type, content := m.content, timestamp := m.timestamp,
    imageUrl := m.imageUrl, processing := m.processing }

/-- Message.createUserMessage; the generated id and the current time are
passed explicitly (the source draws them from Date.now and Math.random). -/
def Message.createUserMessage (id : String) (now : Int) (content : String)
    (imageUrl : Option String) : Message :=
  { id := id, type := .user, content := content, timestamp := now,
    imageUrl := imageUrl, processing := none }

/-- Message.createBotMessage; the optional `processing` argument is `none`
when the source omits it. -/
def Message.createBotMessage (id : String) (now : Int) (content : String)
    (processing : Option Bool) : Message :=
  { id := id, type := .bot, content := content, timestamp := now,
    imageUrl := none, processing := processing }

/-- Message.isUserMessage. -/
def Message.isUserMessage (m : Message) : Bool := m.type = MsgType.user

/-- Message.isProcessing: `!!this.processing`. -/
def Message.isProcessing (m : Message) : Bool := m.processing = some true

/-- The plain `Chat` interface from src/types (the JSON shape). -/
structure ChatData where
  id : String
  title : String
  messages : List MessageData
  lastUpdate : Int
deriving DecidableEq, Repr

/-- The `Chat` model class from src/models (variant of Message.ts sources). -/
structure Chat where
  id : String
  title : String
  messages : List Message
  lastUpdate : Int
deriving DecidableEq, Repr

/-- Chat class constructor: copies id/title/lastUpdate and rebuilds each
message with the Message constructor. -/
def Chat.ofData (d : ChatData) : Chat :=
  { id := d.id, title := d.title, messages := d.messages.map Message.ofData,
    lastUpdate := d.lastUpdate }

/-- Chat.toJSON. -/
def Chat.toJSON (c : Chat) : ChatData :=
  { id := c.id, title := c.title, messages := c.messages.map Message.toJSON,
    lastUpdate := c.lastUpdate }

/-- Chat.create: fresh id passed explicitly, empty message list. -/
def Chat.create (id : String) (title : String) (now : Int) : Chat :=
  { id := id, title := title, messages := [], lastUpdate := now }

/-- Chat.addMessage: push the message and update the timestamp. -/
def Chat.addMessage (now : Int) (c : Chat) (m : Message) : Chat :=
  { c with messages := c.messages ++ [m], lastUpdate := now }

/-- Chat.removeMessage core: remove the first message whose id matches
(`findIndex` + `splice`), reporting whether one was found. -/
def removeFirstMsg (msgId : String) : List Message → List Message × Bool
  | [] => ([], false)
  | m :: ms =>
      if m.id = msgId then (ms, true)
      else
        let r := removeFirstMsg msgId ms
        (m :: r.1, r.2)

/-- Chat.removeMessage: on a hit the list shrinks and the timestamp updates;
on a miss the chat is untouched. -/
def Chat.removeMessage (now : Int) (c : Chat) (msgId : String) : Chat × Bool :=
  let r := removeFirstMsg msgId c.messages
  if r.2 then ({ c with messages := r.1, lastUpdate := now }, true) else (c, false)

/-- Typed JSON values that the services persist through StorageManager:
the `user_data` entry holds a User, the `chat_history` entry a map of chat
id to chat snapshot, the `wallet_address` entry a string.  `numVal` covers
plain numeric entries (used only by the spec-side owner-scoped model). -/
inductive StorageVal where
  | userVal (u : User)
  | chatsVal (cs : List (String × ChatData))
  | strVal (s : String)
  | numVal (q : Num)
deriving DecidableEq, Repr

/-- The browser localStorage: an insertion-ordered map from string keys to
stored JSON values. -/
abbrev Store := List (String × StorageVal)

/-- Lookup in an insertion-ordered association list (Map.get / localStorage.getItem). -/
def lookupA {α : Type} (k : String) : List (String × α) → Option α
  | [] => none
  | (k', v) :: rest => if k' = k then some v else lookupA k rest

/-- In-place update of the value at a key (mutation of the object held in a
JS Map); keys without an entry are untouched. -/
def updateA {α : Type} (k : String) (f : α → α) : List (String × α) → List (String × α)
  | [] => []
  | (k', v) :: rest => if k' = k then (k', f v) :: rest else (k', v) :: updateA k f rest

/-- Map.set / localStorage.setItem: overwrite an existing entry, else append. -/
def setA {α : Type} (k : String) (v : α) : List (String × α) → List (String × α)
  | [] => [(k, v)]
  | (k', v') :: rest => if k' = k then (k, v) :: rest else (k', v') :: setA k v rest

/-- Map.delete / localStorage.removeItem. -/
def removeA {α : Type} (k : String) : List (String × α) → List (String × α)
  | [] => []
  | (k', v) :: rest => if k' = k then rest else (k', v) :: removeA k rest

/-- Events published through EventManager.emit by the embedded services,
recorded in emission order. -/
inductive Event where
  | userBalanceChanged (u : User)
  | userTransaction (kind : String) (amount : Num) (balance : Num)
  | chatMessageSent (m : Message)
  | chatMessageReceived (m : Message)
  | chatCreated (c : Chat)
  | chatDeleted (id : String)
  | walletConnected (address : String)
  | walletDisconnected
deriving DecidableEq, Repr

/-- Combined state of the singleton services: the localStorage contents, the
UserBalanceService in-memory user, the ChatService in-memory chat map, the
log of emitted events, and the WalletService current account. -/
structure Sys where
  store : Store
  user : User
  chats : List (String × Chat)
  events : List Event
  account : Option String
deriving DecidableEq, Repr

namespace StorageManager

/-- STORAGE_KEYS.USER_DATA: the single, owner-independent balance key. -/
def USER_DATA : String := "user_data"

/-- STORAGE_KEYS.CHAT_HISTORY. -/
def CHAT_HISTORY : String := "chat_history"

/-- STORAGE_KEYS.WALLET_ADDRESS. -/
def WALLET_ADDRESS : String := "wallet_address"

/-- StorageManager.saveUser: persist the user under the fixed key. -/
def saveUser (u : User) (s : Store) : Store := setA USER_DATA (.userVal u) s

/-- StorageManager.loadUser: load with DEFAULT_USER as fallback. -/
def loadUser (s : Store) : User :=
  match lookupA USER_DATA s with
  | some (.userVal u) => u
  | _ => DEFAULT_USER

/-- StorageManager.saveChats. -/
def saveChats (cs : List (String × ChatData)) (s : Store) : Store :=
  setA CHAT_HISTORY (.chatsVal cs) s

/-- StorageManager.loadChats: null when no entry exists. -/
def loadChats (s : Store) : Option (List (String × ChatData)) :=
  match lookupA CHAT_HISTORY s with
  | some (.chatsVal cs) => some cs
  | _ => none

/-- StorageManager.saveWalletAddress. -/
def saveWalletAddress (a : String) (s : Store) : Store :=
  setA WALLET_ADDRESS (.strVal a) s

end StorageManager

/-- The UsageCost interface: configured prompt and generation prices. -/
structure UsageCost where
  prompt : Num
  generation : Num
deriving DecidableEq, Repr

/-- ConfigManager.getDefaultConfig usage costs (prompt 0.1, generation 0.5). -/
def defaultUsageCost : UsageCost := { prompt := 0.1, generation := 0.5 }

namespace UserBalanceService

/-- UserBalanceService.addTokens. -/
def addTokens (amount : Num) (sys : Sys) : Bool × Sys :=
  if amount ≤ 0 then (false, sys)
  else
    let u := { sys.user with tokenBalance := sys.user.tokenBalance + amount }
    (true, { sys with user := u, store := StorageManager.saveUser u sys.store,
                      events := sys.events ++ [.userBalanceChanged u] })

/-- UserBalanceService.addCoins. -/
def addCoins (amount : Num) (sys : Sys) : Bool × Sys :=
  if amount ≤ 0 then (false, sys)
  else
    let u := { sys.user with coinBalance := sys.user.coinBalance + amount }
    (true, { sys with user := u, store := StorageManager.saveUser u sys.store,
                      events := sys.events ++ [.userBalanceChanged u] })

/-- UserBalanceService.consumeTokens. -/
def consumeTokens (amount : Num) (sys : Sys) : Bool × Sys :=
  if amount ≤ 0 then (false, sys)
  else if sys.user.tokenBalance < amount then (false, sys)
  else
    let u := { sys.user with tokenBalance := sys.user.tokenBalance - amount }
    (true, { sys with user := u, store := StorageManager.saveUser u sys.store,
                      events := sys.events ++
                        [.userBalanceChanged u,
                         .userTransaction "token" (-amount) u.tokenBalance] })

/-- UserBalanceService.consumeCoins. -/
def consumeCoins (amount : Num) (sys : Sys) : Bool × Sys :=
  if amount ≤ 0 then (false, sys)
  else if sys.user.coinBalance < amount then (false, sys)
  else
    let u := { sys.user with coinBalance := sys.user.coinBalance - amount }
    (true, { sys with user := u, store := StorageManager.saveUser u sys.store,
                      events := sys.events ++
                        [.userBalanceChanged u,
                         .userTransaction "coin" (-amount) u.coinBalance] })

/-- UserBalanceService.hasCoinBalance. -/
def hasCoinBalance (amount : Num) (sys : Sys) : Bool :=
  amount ≤ sys.user.coinBalance

/-- TransactionType is a string-valued enum ('prompt' | 'generation' |
'upload'); the switch in getTransactionCost carries a default branch, so the
cost function is modelled over runtime strings. -/
def getTransactionCost (cfg : UsageCost) (type : String) : Num :=
  if type = "prompt" then cfg.prompt
  else if type = "generation" then cfg.generation
  else if type = "upload" then 0.05
  else 0

/-- Result shape of UserBalanceService.processTransaction. -/
structure TxResult where
  success : Bool
  error : Option String
deriving DecidableEq, Repr

/-- UserBalanceService.processTransaction: balance check, then consumeCoins. -/
def processTransaction (cfg : UsageCost) (type : String) (sys : Sys) :
    TxResult × Sys :=
  let cost := getTransactionCost cfg type
  if ¬ hasCoinBalance cost sys then
    ({ success := false, error := some INSUFFICIENT_BALANCE }, sys)
  else
    let r := consumeCoins cost sys
    ({ success := r.1, error := none }, r.2)

/-- UserBalanceService.canAffordTransaction. -/
def canAffordTransaction (cfg : UsageCost) (type : String) (sys : Sys) : Bool :=
  hasCoinBalance (getTransactionCost cfg type) sys

end UserBalanceService

/-- One credit or debit call of the balance service, for reasoning about
call sequences. -/
inductive BalanceOp where
  | addCoins (amount : Num)
  | addTokens (amount : Num)
  | consumeCoins (amount : Num)
  | consumeTokens (amount : Num)
deriving DecidableEq, Repr

/-- Dispatch one balance call to the embedded service method. -/
def applyBalanceOp : BalanceOp → Sys → Bool × Sys
  | .addCoins a, s => UserBalanceService.addCoins a s
  | .addTokens a, s => UserBalanceService.addTokens a s
  | .consumeCoins a, s => UserBalanceService.consumeCoins a s
  | .consumeTokens a, s => UserBalanceService.consumeTokens a s

/-- Run a sequence of balance calls, recording each call's boolean result. -/
def runBalanceOps : List BalanceOp → Sys → Sys × List (BalanceOp × Bool)
  | [], s => (s, [])
  | op :: ops, s =>
      let r := applyBalanceOp op s
      let rest := runBalanceOps ops r.2
      (rest.1, (op, r.1) :: rest.2)

/-- Coin-balance delta applied by one call: credits and debits that returned
true contribute their signed amount, failed calls contribute nothing. -/
def coinDelta : BalanceOp × Bool → Num
  | (.addCoins a, true) => a
  | (.consumeCoins a, true) => -a
  | _ => 0

/-- Token-balance delta applied by one call. -/
def tokenDelta : BalanceOp × Bool → Num
  | (.addTokens a, true) => a
  | (.consumeTokens a, true) => -a
  | _ => 0

/-- Sum of the coin deltas of the calls that succeeded. -/
def sumCoinDeltas (tr : List (BalanceOp × Bool)) : Num :=
  (tr.map coinDelta).sum

/-- Sum of the token deltas of the calls that succeeded. -/
def sumTokenDeltas (tr : List (BalanceOp × Bool)) : Num :=
  (tr.map tokenDelta).sum

namespace ChatService

/-- ChatService.saveChats: serialize every chat with Chat.toJSON and persist
the snapshot under the chat_history key. -/
def saveChats (sys : Sys) : Sys :=
  { sys with store :=
      StorageManager.saveChats (sys.chats.map fun p => (p.1, p.2.toJSON)) sys.store }

/-- ChatService.createChat: build the chat, set it in the map, persist,
publish CHAT_CREATED. -/
def createChat (cid : String) (now : Int) (title : String) (sys : Sys) : Chat × Sys :=
  let chat := Chat.create cid title now
  let sys1 := saveChats { sys with chats := setA cid chat sys.chats }
  (chat, { sys1 with events := sys1.events ++ [.chatCreated chat] })

/-- ChatService.addMessage: false when the chat id is unknown; otherwise
append the message, persist, and publish message-sent or message-received
according to the author kind. -/
def addMessage (now : Int) (chatId : String) (m : Message) (sys : Sys) : Bool × Sys :=
  match lookupA chatId sys.chats with
  | some _ =>
      let sys1 := saveChats
        { sys with chats := updateA chatId (fun c => c.addMessage now m) sys.chats }
      let ev := if m.isUserMessage then Event.chatMessageSent m
                else Event.chatMessageReceived m
      (true, { sys1 with events := sys1.events ++ [ev] })
  | none => (false, sys)

/-- ChatService.deleteMessage: false when the chat id or the message id is
unknown; otherwise remove the message and persist. -/
def deleteMessage (now : Int) (chatId : String) (messageId : String) (sys : Sys) :
    Bool × Sys :=
  match lookupA chatId sys.chats with
  | some chat =>
      let r := chat.removeMessage now messageId
      if r.2 then
        (true, saveChats { sys with chats := updateA chatId (fun _ => r.1) sys.chats })
      else (false, sys)
  | none => (false, sys)

/-- Welcome text of the bootstrap bot message in ChatService.loadChats. -/
def welcomeText : String :=
  "Hello! I\x27m a YOLO object detection assistant. Upload an image and I\x27ll tell you what objects I can detect!"

/-- ChatService constructor body (loadChats): rebuild the chat map from the
persisted snapshot; if no chats result, create one default chat through
createChat and push a welcome bot message onto the chat object in the map
(the source mutates the shared Chat instance without re-saving). The fresh
chat id, message id and clock are explicit parameters. -/
def construct (cid mid : String) (now : Int) (store : Store) (user : User)
    (events : List Event) (account : Option String) : Sys :=
  let sys0 : Sys := { store := store, user := user, chats := [],
                      events := events, account := account }
  let sys1 :=
    match StorageManager.loadChats store with
    | some entries =>
        { sys0 with chats := entries.map fun p => (p.1, Chat.ofData p.2) }
    | none => sys0
  if sys1.chats.length == 0 then
    let r := createChat cid now "New Chat" sys1
    let welcome := Message.createBotMessage mid now welcomeText none
    { r.2 with chats := updateA cid (fun c => c.addMessage now welcome) r.2.chats }
  else sys1

end ChatService

/-- Bounding box of one detection. -/
structure Box where
  x1 : Num
  y1 : Num
  x2 : Num
  y2 : Num
deriving DecidableEq, Repr

/-- One YOLO detection (class label renamed to `cls`: `class` is reserved). -/
structure Detection where
  cls : String
  confidence : Num
  box : Box
deriving DecidableEq, Repr

/-- DetectionResultModel from src/models/Detection.ts. -/
structure DetectionResultModel where
  detections : List Detection
  annotated_image : String
deriving DecidableEq, Repr

/-- Rendering of JavaScript `(x).toFixed(1)` for the modelled numbers. -/
def toFixed1 (q : Num) : String :=
  let n : Int := round (q * 10)
  toString (n / 10) ++ "." ++ toString (n.natAbs % 10)

/-- Detection.getConfidencePercent. -/
def Detection.getConfidencePercent (d : Detection) : String :=
  toFixed1 (d.confidence * 100) ++ "%"

/-- Detection.toDisplay. -/
def Detection.toDisplay (d : Detection) : String :=
  d.cls ++ " (" ++ d.getConfidencePercent ++ ")"

/-- First-occurrence deduplication (`Array.from(new Set(xs))`). -/
def dedupFirstAux (seen : List String) : List String → List String
  | [] => []
  | x :: xs =>
      if seen.contains x then dedupFirstAux seen xs
      else x :: dedupFirstAux (x :: seen) xs

/-- DetectionResultModel.hasDetections. -/
def DetectionResultModel.hasDetections (r : DetectionResultModel) : Bool :=
  r.detections.length > 0

/-- DetectionResultModel.getDetectionCount. -/
def DetectionResultModel.getDetectionCount (r : DetectionResultModel) : Nat :=
  r.detections.length

/-- DetectionResultModel.getUniqueClasses. -/
def DetectionResultModel.getUniqueClasses (r : DetectionResultModel) : List String :=
  dedupFirstAux [] (r.detections.map (·.cls))

/-- DetectionResultModel.getSummary. -/
def DetectionResultModel.getSummary (r : DetectionResultModel) : String :=
  if ¬ r.hasDetections then "No objects detected"
  else
    let classes := r.getUniqueClasses
    if classes.length == 1 then
      "Found " ++ toString r.getDetectionCount ++ " " ++ classes.headD ""
        ++ (if r.getDetectionCount > 1 then "s" else "")
    else
      "Found " ++ toString r.getDetectionCount ++ " objects ("
        ++ toString classes.length ++ " types)"

/-- DetectionResultModel.getFormattedList. -/
def DetectionResultModel.getFormattedList (r : DetectionResultModel) : List String :=
  r.detections.map Detection.toDisplay

/-- Outcome of the awaited `detectionService.detectObjects` call: the
external detection gateway either returns a result or throws, with the
error message carried by the exception. -/
inductive DetectOutcome where
  | ok (r : DetectionResultModel)
  | err (msg : String)
deriving Repr

namespace ChatBot

/-- Text of the insufficiency notice in handleSendMessage. -/
def insufficientText (cost balance : Num) : String :=
  "Sorry, you don\x27t have enough balance. You need $" ++ toString cost
    ++ " but only have $" ++ toString balance ++ "."

/-- Text of the failure notice in the catch branch of processUserMessage. -/
def errorText (msg : String) : String :=
  "Sorry, I encountered an error: " ++ msg
    ++ ". Please make sure the YOLO server is running."

/-- Transaction type chosen in handleSendMessage: GENERATION when an image
is attached, PROMPT otherwise. -/
def transactionTypeFor (selectedImage : Option String) : String :=
  match selectedImage with
  | some _ => "generation"
  | none => "prompt"

/-- Cost shown in the insufficiency notice of handleSendMessage. -/
def costFor (cfg : UsageCost) (selectedImage : Option String) : Num :=
  match selectedImage with
  | some _ => cfg.generation
  | none => cfg.prompt

/-- User-message content in handleSendMessage: the trimmed input, or the
canned caption when only an image is sent. -/
def userContentFor (inputText : String) : String :=
  if inputText.trim ≠ "" then inputText.trim else "Please analyze this image"

/-- ChatBot.processUserMessage: append the `Analyzing...` placeholder with
processing = true, run the detection call when an image is attached (the
second component counts detection-gateway calls), then remove the
placeholder and append the finalized or failure bot message.  Fresh message
ids (`procId` for the placeholder, `botId` for the final message) and the
clock are explicit parameters; `outcome` is the gateway's behaviour for the
single call this operation makes. -/
def processUserMessage (procId botId : String) (now : Int) (outcome : DetectOutcome)
    (chatId : String) (imageFile : Option String) (sys : Sys) : Sys × Nat :=
  let processingMessage := Message.createBotMessage procId now "Analyzing..." (some true)
  let sys1 := (ChatService.addMessage now chatId processingMessage sys).2
  match imageFile with
  | some _ =>
      match outcome with
      | .ok r =>
          let responseContent :=
            if r.hasDetections then
              r.getSummary ++ ". Detected: "
                ++ String.intercalate ", " (r.getFormattedList.take 10)
            else "No objects detected in the image."
          let sys2 := (ChatService.deleteMessage now chatId procId sys1).2
          let botMessage := Message.createBotMessage botId now responseContent none
          ((ChatService.addMessage now chatId botMessage sys2).2, 1)
      | .err msg =>
          let sys2 := (ChatService.deleteMessage now chatId procId sys1).2
          let botMessage := Message.createBotMessage botId now (errorText msg) none
          ((ChatService.addMessage now chatId botMessage sys2).2, 1)
  | none =>
      let responseContent :=
        "I can help you analyze images! Please upload an image to detect objects."
      let sys2 := (ChatService.deleteMessage now chatId procId sys1).2
      let botMessage := Message.createBotMessage botId now responseContent none
      ((ChatService.addMessage now chatId botMessage sys2).2, 0)

/-- ChatBot.handleSendMessage: early return on empty input; affordability
check; transaction processing; user-message append; then processUserMessage.
`selectedImage` carries the image preview URL when an image is attached.
Fresh ids for the user message (`userId`), the placeholder (`procId`) and
the bot message (`botId`) are explicit parameters.  The second component of
the result counts detection-gateway calls made by the operation. -/
def handleSendMessage (cfg : UsageCost) (userId procId botId : String) (now : Int)
    (outcome : DetectOutcome) (chatId : String) (inputText : String)
    (selectedImage : Option String) (sys : Sys) : Sys × Nat :=
  if inputText.trim = "" ∧ selectedImage = none then (sys, 0)
  else
    let transactionType := transactionTypeFor selectedImage
    let canAfford := UserBalanceService.canAffordTransaction cfg transactionType sys
    if ¬ canAfford then
      let botMessage := Message.createBotMessage botId now
        (insufficientText (costFor cfg selectedImage) sys.user.coinBalance) none
      ((ChatService.addMessage now chatId botMessage sys).2, 0)
    else
      let tr := UserBalanceService.processTransaction cfg transactionType sys
      if ¬ tr.1.success then
        let botMessage := Message.createBotMessage botId now
          (tr.1.error.getD "Transaction failed") none
        ((ChatService.addMessage now chatId botMessage tr.2).2, 0)
      else
        let userMessage := Message.createUserMessage userId now
          (userContentFor inputText) selectedImage
        let sys2 := (ChatService.addMessage now chatId userMessage tr.2).2
        processUserMessage procId botId now outcome chatId selectedImage sys2

end ChatBot

/-- Handlers registered with the EventManager.  A callback function is
identified by a number (`plain cb`); each call to `once` builds a fresh
wrapper closure around its callback, identified by a fresh `tag`, so two
wrappers of the same callback are distinct function objects.  The wrapper's
behaviour — invoke the callback, then unsubscribe itself, with the
unsubscribe skipped when the callback throws — is fixed by the source and is
built into `emit` below. -/
inductive Handler where
  | plain (cb : Nat)
  | onceWrap (tag : Nat) (cb : Nat)
deriving DecidableEq, Repr

/-- Whether a handler is still registered after an emit has invoked it,
given the behaviour of the callback functions (`throws cb` holds when
callback `cb` raises).  A plain handler always stays.  A once wrapper runs
its callback and then calls its own unsubscribe; when the callback throws,
the exception propagates out of the wrapper and is caught by emit's
try/catch before the self-unsubscribe runs, so the wrapper stays
registered. -/
def Handler.survivesEmit (throws : Nat → Bool) : Handler → Bool
  | .plain _ => true
  | .onceWrap _ cb => throws cb

/-- EventManager state: `listeners`, a Map from event name to an
insertion-ordered Set of handlers. -/
structure EventManagerState where
  listeners : List (String × List Handler)
deriving DecidableEq, Repr

/-- The unsubscribe capability returned by `on`: the closure deletes exactly
this handler from this event's set (and drops the event entry when the set
empties). -/
structure Unsubscribe where
  event : String
  handler : Handler
deriving DecidableEq, Repr

namespace EventManager

/-- Set.add on the handler set of an event, creating the entry when absent;
adding an already-present member is a no-op (JS Set semantics). -/
def addListener (e : String) (h : Handler) (st : EventManagerState) :
    EventManagerState :=
  match lookupA e st.listeners with
  | some _ =>
      { listeners :=
          updateA e (fun hs => if hs.contains h then hs else hs ++ [h]) st.listeners }
  | none => { listeners := st.listeners ++ [(e, [h])] }

/-- EventManager.on (renamed: `on` is reserved in Lean): register the
callback and return the unsubscribe capability for exactly this
registration. -/
def onEvent (e : String) (cb : Nat) (st : EventManagerState) :
    Unsubscribe × EventManagerState :=
  (⟨e, .plain cb⟩, addListener e (.plain cb) st)

/-- EventManager.once: register a fresh wrapper around the callback; the
returned capability unsubscribes the wrapper. -/
def once (e : String) (tag cb : Nat) (st : EventManagerState) :
    Unsubscribe × EventManagerState :=
  (⟨e, .onceWrap tag cb⟩, addListener e (.onceWrap tag cb) st)

/-- Invoking an unsubscribe capability: `callbacks.delete(callback)`, then
drop the event entry if the set became empty. -/
def applyUnsubscribe (u : Unsubscribe) (st : EventManagerState) :
    EventManagerState :=
  match lookupA u.event st.listeners with
  | some hs =>
      let hs' := hs.filter (fun h => h ≠ u.handler)
      if hs'.isEmpty then { listeners := removeA u.event st.listeners }
      else { listeners := updateA u.event (fun _ => hs') st.listeners }
  | none => st

/-- EventManager.emit: invoke every handler currently registered for the
event, in registration order, each call wrapped in try/catch — a throwing
callback is logged and swallowed and never prevents the remaining handlers
from running.  The callback behaviour is the oracle `throws`.  A once
wrapper whose callback returns normally unsubscribes itself; one whose
callback throws stays registered (the catch in emit fires before the
wrapper's unsubscribe).  The event entry disappears when the last
self-unsubscribe empties the set.  The second component records the
handlers that ran. -/
def emit (throws : Nat → Bool) (e : String) (st : EventManagerState) :
    EventManagerState × List Handler :=
  match lookupA e st.listeners with
  | none => (st, [])
  | some hs =>
      let remaining := hs.filter (Handler.survivesEmit throws)
      let st' :=
        if remaining.length == hs.length then st
        else if remaining.isEmpty then { listeners := removeA e st.listeners }
        else { listeners := updateA e (fun _ => remaining) st.listeners }
      (st', hs)

/-- Handlers currently registered for an event. -/
def handlersOf (e : String) (st : EventManagerState) : List Handler :=
  (lookupA e st.listeners).getD []

end EventManager

namespace WalletService

/-- WalletService.disconnect: clear the account, remove the persisted wallet
address, publish WALLET_DISCONNECTED. -/
def disconnect (sys : Sys) : Sys :=
  { sys with account := none,
             store := removeA StorageManager.WALLET_ADDRESS sys.store,
             events := sys.events ++ [.walletDisconnected] }

/-- WalletService.handleAccountsChanged: the wallet-switch entry point.  An
empty account list disconnects; a new first account replaces the stored
account, persists the wallet address and publishes WALLET_CONNECTED.  No
other service state is touched: in particular the UserBalanceService
in-memory user and the `user_data` storage entry are left as they are. -/
def handleAccountsChanged (accounts : List String) (sys : Sys) : Sys :=
  match accounts with
  | [] => disconnect sys
  | a :: _ =>
      if sys.account ≠ some a then
        { sys with account := some a,
                   store := StorageManager.saveWalletAddress a sys.store,
                   events := sys.events ++ [.walletConnected a] }
      else sys

end WalletService

/-- Modelled from the spec: the repository's source has no per-owner balance
storage keys — this definition follows §6 of the spec ("Persisted state
layout … `balance:<currency>:<owner>` … the invariant is per-owner
namespacing") and reads the coin balance that the spec says is persisted
under the given owner's scoped key.  It exists only to compare the spec's
required owner-scoped layout with the code's single `user_data` key. -/
def specOwnerCoinBalance (owner : String) (s : Store) : Option Num :=
  match lookupA ("balance:coin:" ++ owner) s with
  | some (.numVal q) => some q
  | _ => none

/-- Append a sequence of messages to one thread through
ChatService.addMessage (each call persists and publishes as the service
does). -/
def appendThrough (now : Int) (tid : String) (ms : List Message) (sys : Sys) : Sys :=
  ms.foldl (fun s m => (ChatService.addMessage now tid m s).2) sys

/-- Reload a fresh ChatService from the persisted snapshot of a system. -/
def reloadFromStore (cid mid : String) (now : Int) (sys : Sys) : Sys :=
  ChatService.construct cid mid now sys.store sys.user sys.events sys.account

/-- Baseline system: empty storage, default user, no chats, no wallet. -/
def sysEmpty : Sys :=
  { store := [], user := DEFAULT_USER, chats := [], events := [], account := none }

/-- System with a low coin balance (0.05, below every configured cost). -/
def sysLow : Sys :=
  { sysEmpty with user := { tokenBalance := 0, coinBalance := 0.05 } }

/-- A one-thread chat fixture used by concrete witnesses. -/
def chatFix : Chat :=
  { id := "t1", title := "New Chat",
    messages := [Message.createBotMessage "m0" 0 ChatService.welcomeText none],
    lastUpdate := 0 }

/-- System holding the fixture thread. -/
def sysChat (u : User) : Sys :=
  { sysEmpty with user := u, chats := [("t1", chatFix)] }

/-- Storage fixture for the wallet-switch scenario: the code's single
`user_data` entry holding owner A's user, alongside the per-owner entries
the spec's layout would mandate, with distinct balances for the two
owners (A: 100, B: 200). -/
def storeTwoOwners : Store :=
  [(StorageManager.USER_DATA, .userVal { tokenBalance := 1000, coinBalance := 100 }),
   ("balance:coin:0xA", .numVal 100),
   ("balance:coin:0xB", .numVal 200)]

/-- System fixture: owner A connected, A's balance of 100 in memory and in
`user_data`. -/
def sysTwoOwners : Sys :=
  { store := storeTwoOwners,
    user := { tokenBalance := 1000, coinBalance := 100 },
    chats := [], events := [], account := some "0xA" }

/-- Callback-behaviour oracle for emits whose callbacks all return
normally. -/
def throwsNone : Nat → Bool := fun _ => false

/-- Callback-behaviour oracle for emits whose callbacks all throw. -/
def throwsAll : Nat → Bool := fun _ => true

/-
Helper lemmas about the association-list operations.
-/

theorem lookupA_updateA_self {α : Type} (k : String) (f : α → α) :
    ∀ l : List (String × α), lookupA k (updateA k f l) = (lookupA k l).map f := by
  intro l
  induction l with
  | nil => simp [lookupA, updateA]
  | cons p rest ih =>
      by_cases h : p.1 = k
      · simp [lookupA, updateA, h]
      · simp [lookupA, updateA, h, ih]

theorem lookupA_setA_self {α : Type} (k : String) (v : α) :
    ∀ l : List (String × α), lookupA k (setA k v l) = some v := by
  intro l
  induction l with
  | nil => simp [lookupA, setA]
  | cons p rest ih =>
      by_cases h : p.1 = k
      · simp [lookupA, setA, h]
      · simp [lookupA, setA, h, ih]

theorem lookupA_ne_nil {α : Type} {k : String} {l : List (String × α)} {v : α}
    (h : lookupA k l = some v) : l ≠ [] := by
  intro he
  subst he
  simp [lookupA] at h

/-
Claim C1 machinery: single-step behaviour of each balance call, then the
sequence-level accounting.
-/

theorem applyBalanceOp_coin (op : BalanceOp) (s : Sys) :
    (applyBalanceOp op s).2.user.coinBalance
      = s.user.coinBalance + coinDelta (op, (applyBalanceOp op s).1) := by
  cases op with
  | addCoins a =>
      by_cases h : a ≤ 0 <;>
        simp [applyBalanceOp, UserBalanceService.addCoins, h, coinDelta]
  | addTokens a =>
      by_cases h : a ≤ 0 <;>
        simp [applyBalanceOp, UserBalanceService.addTokens, h, coinDelta]
  | consumeCoins a =>
      by_cases h : a ≤ 0
      · simp [applyBalanceOp, UserBalanceService.consumeCoins, h, coinDelta]
      · by_cases h2 : s.user.coinBalance < a <;>
          simp [applyBalanceOp, UserBalanceService.consumeCoins, h, h2, coinDelta] <;>
          ring
  | consumeTokens a =>
      by_cases h : a ≤ 0
      · simp [applyBalanceOp, UserBalanceService.consumeTokens, h, coinDelta]
      · by_cases h2 : s.user.tokenBalance < a <;>
          simp [applyBalanceOp, UserBalanceService.consumeTokens, h, h2, coinDelta]

theorem applyBalanceOp_token (op : BalanceOp) (s : Sys) :
    (applyBalanceOp op s).2.user.tokenBalance
      = s.user.tokenBalance + tokenDelta (op, (applyBalanceOp op s).1) := by
  cases op with
  | addCoins a =>
      by_cases h : a ≤ 0 <;>
        simp [applyBalanceOp, UserBalanceService.addCoins, h, tokenDelta]
  | addTokens a =>
      by_cases h : a ≤ 0 <;>
        simp [applyBalanceOp, UserBalanceService.addTokens, h, tokenDelta]
  | consumeCoins a =>
      by_cases h : a ≤ 0
      · simp [applyBalanceOp, UserBalanceService.consumeCoins, h, tokenDelta]
      · by_cases h2 : s.user.coinBalance < a <;>
          simp [applyBalanceOp, UserBalanceService.consumeCoins, h, h2, tokenDelta]
  | consumeTokens a =>
      by_cases h : a ≤ 0
      · simp [applyBalanceOp, UserBalanceService.consumeTokens, h, tokenDelta]
      · by_cases h2 : s.user.tokenBalance < a <;>
          simp [applyBalanceOp, UserBalanceService.consumeTokens, h, h2, tokenDelta] <;>
          ring

theorem applyBalanceOp_nonneg (op : BalanceOp) (s : Sys)
    (hc : 0 ≤ s.user.coinBalance) (ht : 0 ≤ s.user.tokenBalance) :
    0 ≤ (applyBalanceOp op s).2.user.coinBalance
      ∧ 0 ≤ (applyBalanceOp op s).2.user.tokenBalance := by
  cases op with
  | addCoins a =>
      by_cases h : a ≤ 0 <;>
        simp [applyBalanceOp, UserBalanceService.addCoins, h, hc, ht] <;> linarith
  | addTokens a =>
      by_cases h : a ≤ 0 <;>
        simp [applyBalanceOp, UserBalanceService.addTokens, h, hc, ht] <;> linarith
  | consumeCoins a =>
      by_cases h : a ≤ 0
      · simp [applyBalanceOp, UserBalanceService.consumeCoins, h, hc, ht]
      · by_cases h2 : s.user.coinBalance < a <;>
          simp [applyBalanceOp, UserBalanceService.consumeCoins, h, h2, hc, ht] <;>
          linarith
  | consumeTokens a =>
      by_cases h : a ≤ 0
      · simp [applyBalanceOp, UserBalanceService.consumeTokens, h, hc, ht]
      · by_cases h2 : s.user.tokenBalance < a <;>
          simp [applyBalanceOp, UserBalanceService.consumeTokens, h, h2, hc, ht] <;>
          linarith

theorem runBalanceOps_coin (ops : List BalanceOp) :
    ∀ s : Sys, (runBalanceOps ops s).1.user.coinBalance
      = s.user.coinBalance + sumCoinDeltas (runBalanceOps ops s).2 := by
  induction ops with
  | nil => intro s; simp [runBalanceOps, sumCoinDeltas]
  | cons op ops ih =>
      intro s
      have hstep := applyBalanceOp_coin op s
      simp only [runBalanceOps, sumCoinDeltas, List.map_cons, List.sum_cons]
      rw [ih (applyBalanceOp op s).2]
      simp only [sumCoinDeltas] at *
      rw [hstep]
      ring

theorem runBalanceOps_token (ops : List BalanceOp) :
    ∀ s : Sys, (runBalanceOps ops s).1.user.tokenBalance
      = s.user.tokenBalance + sumTokenDeltas (runBalanceOps ops s).2 := by
  induction ops with
  | nil => intro s; simp [runBalanceOps, sumTokenDeltas]
  | cons op ops ih =>
      intro s
      have hstep := applyBalanceOp_token op s
      simp only [runBalanceOps, sumTokenDeltas, List.map_cons, List.sum_cons]
      rw [ih (applyBalanceOp op s).2]
      simp only [sumTokenDeltas] at *
      rw [hstep]
      ring

theorem runBalanceOps_nonneg (ops : List BalanceOp) :
    ∀ s : Sys, 0 ≤ s.user.coinBalance → 0 ≤ s.user.tokenBalance →
      0 ≤ (runBalanceOps ops s).1.user.coinBalance
        ∧ 0 ≤ (runBalanceOps ops s).1.user.tokenBalance := by
  induction ops with
  | nil => intro s hc ht; simpa [runBalanceOps] using ⟨hc, ht⟩
  | cons op ops ih =>
      intro s hc ht
      have hstep := applyBalanceOp_nonneg op s hc ht
      simpa [runBalanceOps] using ih (applyBalanceOp op s).2 hstep.1 hstep.2

/-- C1: for every finite sequence of credit (addCoins/addTokens) and debit
(consumeCoins/consumeTokens) calls starting from any non-negative balances,
the balance after the sequence equals the initial balance plus the sum of
the deltas of the calls that returned true, and both balances are
non-negative after every prefix of the sequence. -/
theorem balance_sequence_sum_and_nonneg (ops : List BalanceOp) (sys : Sys)
    (hc : 0 ≤ sys.user.coinBalance) (ht : 0 ≤ sys.user.tokenBalance) :
    ((runBalanceOps ops sys).1.user.coinBalance
        = sys.user.coinBalance + sumCoinDeltas (runBalanceOps ops sys).2)
    ∧ ((runBalanceOps ops sys).1.user.tokenBalance
        = sys.user.tokenBalance + sumTokenDeltas (runBalanceOps ops sys).2)
    ∧ (∀ n : Nat, 0 ≤ (runBalanceOps (ops.take n) sys).1.user.coinBalance
        ∧ 0 ≤ (runBalanceOps (ops.take n) sys).1.user.tokenBalance) :=
  ⟨runBalanceOps_coin ops sys, runBalanceOps_token ops sys,
   fun n => runBalanceOps_nonneg (ops.take n) sys hc ht⟩

/-- Concrete sequence for the C1 witness. -/
def opsFix : List BalanceOp :=
  [.addCoins 5, .consumeCoins 3, .consumeCoins 1000, .addTokens 2,
   .consumeTokens (-1), .addCoins 0]

/-- Witness for C1 at a concrete sequence: credits of 5, a successful debit
of 3, a failed debit of 1000, a token credit of 2, a rejected negative
debit and a rejected zero credit, starting from the default balances. -/
theorem balance_sequence_sum_and_nonneg_witness :
    (0 ≤ sysEmpty.user.coinBalance)
    ∧ (0 ≤ sysEmpty.user.tokenBalance)
    ∧ (runBalanceOps opsFix sysEmpty).1.user.coinBalance = 502
    ∧ sumCoinDeltas (runBalanceOps opsFix sysEmpty).2 = 2
    ∧ ((runBalanceOps opsFix sysEmpty).1.user.coinBalance
        = sysEmpty.user.coinBalance + sumCoinDeltas (runBalanceOps opsFix sysEmpty).2) :=
  ⟨by decide, by decide,
   by norm_num [opsFix, sysEmpty, runBalanceOps, applyBalanceOp,
     UserBalanceService.addCoins, UserBalanceService.consumeCoins,
     UserBalanceService.addTokens, UserBalanceService.consumeTokens,
     sumCoinDeltas, coinDelta, DEFAULT_USER, StorageManager.saveUser],
   by norm_num [opsFix, sysEmpty, runBalanceOps, applyBalanceOp,
     UserBalanceService.addCoins, UserBalanceService.consumeCoins,
     UserBalanceService.addTokens, UserBalanceService.consumeTokens,
     sumCoinDeltas, coinDelta, DEFAULT_USER, StorageManager.saveUser],
   (balance_sequence_sum_and_nonneg opsFix sysEmpty (by decide) (by decide)).1⟩

/-- C2: consumeCoins returns false and leaves the whole state unchanged when
the amount is non-positive or exceeds the balance; otherwise it returns
true, decreases the coin balance by exactly the amount, leaves the token
balance alone, persists the new user under the user_data key, and publishes
a balance-changed event followed by a transaction-recorded event. -/
theorem consumeCoins_spec (sys : Sys) (amount : Num) :
    ((amount ≤ 0 ∨ sys.user.coinBalance < amount) →
        UserBalanceService.consumeCoins amount sys = (false, sys))
    ∧ (0 < amount → amount ≤ sys.user.coinBalance →
        (UserBalanceService.consumeCoins amount sys).1 = true
        ∧ (UserBalanceService.consumeCoins amount sys).2.user.coinBalance
            = sys.user.coinBalance - amount
        ∧ (UserBalanceService.consumeCoins amount sys).2.user.tokenBalance
            = sys.user.tokenBalance
        ∧ lookupA StorageManager.USER_DATA
            (UserBalanceService.consumeCoins amount sys).2.store
            = some (.userVal (UserBalanceService.consumeCoins amount sys).2.user)
        ∧ (UserBalanceService.consumeCoins amount sys).2.events
            = sys.events ++
              [.userBalanceChanged (UserBalanceService.consumeCoins amount sys).2.user,
               .userTransaction "coin" (-amount)
                 (UserBalanceService.consumeCoins amount sys).2.user.coinBalance]) := by
  constructor
  · intro h
    by_cases h1 : amount ≤ 0
    · simp [UserBalanceService.consumeCoins, h1]
    · have h2 : sys.user.coinBalance < amount := by
        rcases h with h | h
        · exact absurd h h1
        · exact h
      simp [UserBalanceService.consumeCoins, h1, h2]
  · intro h1 h2
    have hn1 : ¬ amount ≤ 0 := not_le.mpr h1
    have hn2 : ¬ sys.user.coinBalance < amount := not_lt.mpr h2
    simp [UserBalanceService.consumeCoins, hn1, hn2, StorageManager.saveUser,
      lookupA_setA_self]

/-- Witness for C2: a debit of 5 against a balance of 0.05 fails without
mutation, and a debit of 5 against the default balance of 500 succeeds,
leaving 495. -/
theorem consumeCoins_spec_witness :
    (sysLow.user.coinBalance < 5
      ∧ UserBalanceService.consumeCoins 5 sysLow = (false, sysLow))
    ∧ ((0 : Num) < 5 ∧ (5 : Num) ≤ sysEmpty.user.coinBalance
      ∧ (UserBalanceService.consumeCoins 5 sysEmpty).1 = true
      ∧ (UserBalanceService.consumeCoins 5 sysEmpty).2.user.coinBalance = 495) := by
  have hlow : sysLow.user.coinBalance < 5 := by
    norm_num [sysLow, sysEmpty, DEFAULT_USER]
  have hbal : (5 : Num) ≤ sysEmpty.user.coinBalance := by
    norm_num [sysEmpty, DEFAULT_USER]
  refine ⟨⟨hlow, (consumeCoins_spec sysLow 5).1 (Or.inr hlow)⟩,
    by norm_num, hbal, ((consumeCoins_spec sysEmpty 5).2 (by norm_num) hbal).1, ?_⟩
  norm_num [UserBalanceService.consumeCoins, sysEmpty, DEFAULT_USER,
    StorageManager.saveUser]

/-- C9: when the transaction cost resolves to 0 (the default branch of
getTransactionCost), processTransaction returns success = false with no
error string whenever the hasCoinBalance(0) check passes, because
consumeCoins rejects non-positive amounts; and a zero-cost transaction can
never succeed in any state. -/
theorem zero_cost_transaction_never_succeeds (cfg : UsageCost) (t : String)
    (sys : Sys) (hcost : UserBalanceService.getTransactionCost cfg t = 0) :
    (0 ≤ sys.user.coinBalance →
        UserBalanceService.processTransaction cfg t sys
          = ({ success := false, error := none }, sys))
    ∧ (UserBalanceService.processTransaction cfg t sys).1.success = false := by
  by_cases hb : 0 ≤ sys.user.coinBalance
  · constructor
    · intro _
      simp [UserBalanceService.processTransaction, UserBalanceService.hasCoinBalance,
        hcost, hb, UserBalanceService.consumeCoins]
    · simp [UserBalanceService.processTransaction, UserBalanceService.hasCoinBalance,
        hcost, hb, UserBalanceService.consumeCoins]
  · constructor
    · intro h
      exact absurd h hb
    · simp [UserBalanceService.processTransaction, UserBalanceService.hasCoinBalance,
        hcost, hb]

/-- Witness for C9: the unknown transaction type string hits the default
branch (cost 0), the default balance passes the zero-cost check, and the
transaction still fails with no error string. -/
theorem zero_cost_transaction_never_succeeds_witness :
    UserBalanceService.getTransactionCost defaultUsageCost "mint" = 0
    ∧ 0 ≤ sysEmpty.user.coinBalance
    ∧ UserBalanceService.processTransaction defaultUsageCost "mint" sysEmpty
        = ({ success := false, error := none }, sysEmpty) := by
  have hc : UserBalanceService.getTransactionCost defaultUsageCost "mint" = 0 := by
    decide
  have hb : 0 ≤ sysEmpty.user.coinBalance := by decide
  exact ⟨hc, hb,
    (zero_cost_transaction_never_succeeds defaultUsageCost "mint" sysEmpty hc).1 hb⟩

/-- C7: a ChatService constructed over storage with no persisted chat data
holds exactly one thread, containing exactly one message: the welcome bot
message. -/
theorem chatService_bootstrap_welcome (cid mid : String) (now : Int)
    (store : Store) (user : User) (events : List Event) (account : Option String)
    (h : lookupA StorageManager.CHAT_HISTORY store = none) :
    (ChatService.construct cid mid now store user events account).chats
      = [(cid, { id := cid, title := "New Chat",
                 messages :=
                   [Message.createBotMessage mid now ChatService.welcomeText none],
                 lastUpdate := now })]
    ∧ (Message.createBotMessage mid now ChatService.welcomeText none).type
        = MsgType.bot := by
  constructor
  · simp [ChatService.construct, StorageManager.loadChats, h,
      ChatService.createChat, ChatService.saveChats, StorageManager.saveChats,
      Chat.create, Chat.addMessage, setA, updateA]
  · rfl

/-- Witness for C7: constructing over empty storage yields the single
welcome thread. -/
theorem chatService_bootstrap_welcome_witness :
    lookupA StorageManager.CHAT_HISTORY ([] : Store) = none
    ∧ (ChatService.construct "c1" "m1" 0 [] DEFAULT_USER [] none).chats
        = [("c1", { id := "c1", title := "New Chat",
                    messages :=
                      [Message.createBotMessage "m1" 0 ChatService.welcomeText none],
                    lastUpdate := 0 })] :=
  ⟨by decide,
   (chatService_bootstrap_welcome "c1" "m1" 0 [] DEFAULT_USER [] none (by decide)).1⟩

/-
Claim C8 machinery: serialization round-trips and message appending.
-/

theorem message_ofData_toJSON (m : Message) :
    Message.ofData (Message.toJSON m) = m := rfl

theorem map_ofData_toJSON (ms : List Message) :
    ms.map (Message.ofData ∘ Message.toJSON) = ms := by
  induction ms with
  | nil => rfl
  | cons m rest ih => simp [Function.comp, message_ofData_toJSON, ih]

theorem chat_ofData_toJSON (c : Chat) : Chat.ofData (Chat.toJSON c) = c := by
  cases c
  simp [Chat.ofData, Chat.toJSON, map_ofData_toJSON]

theorem map_chats_roundtrip (l : List (String × Chat)) :
    l.map ((fun p => (p.1, Chat.ofData p.2)) ∘ fun p => (p.1, p.2.toJSON)) = l := by
  induction l with
  | nil => rfl
  | cons p rest ih => simp [Function.comp, chat_ofData_toJSON, ih]

theorem appendThrough_lookup (now : Int) (tid : String) :
    ∀ (ms : List Message) (sys : Sys) (c : Chat),
      lookupA tid sys.chats = some c →
      ∃ c', lookupA tid (appendThrough now tid ms sys).chats = some c'
        ∧ c'.messages = c.messages ++ ms := by
  intro ms
  induction ms with
  | nil =>
      intro sys c h
      exact ⟨c, by simpa [appendThrough] using h, by simp⟩
  | cons m rest ih =>
      intro sys c h
      have hstep : lookupA tid ((ChatService.addMessage now tid m sys).2).chats
          = some (c.addMessage now m) := by
        simp [ChatService.addMessage, h, ChatService.saveChats,
          lookupA_updateA_self]
      obtain ⟨c', h1, h2⟩ :=
        ih ((ChatService.addMessage now tid m sys).2) (c.addMessage now m) hstep
      refine ⟨c', ?_, ?_⟩
      · simpa [appendThrough] using h1
      · rw [h2]
        simp [Chat.addMessage]

theorem reload_saveChats (cid mid : String) (now2 : Int) (sys : Sys)
    (hne : sys.chats ≠ []) :
    (reloadFromStore cid mid now2 (ChatService.saveChats sys)).chats = sys.chats := by
  have hload : StorageManager.loadChats
      (StorageManager.saveChats (sys.chats.map fun p => (p.1, p.2.toJSON)) sys.store)
      = some (sys.chats.map fun p => (p.1, p.2.toJSON)) := by
    simp [StorageManager.saveChats, StorageManager.loadChats, lookupA_setA_self]
  have h0 : sys.chats.length ≠ 0 := by
    intro h
    exact hne (List.length_eq_zero.mp h)
  have hb : (sys.chats.length == 0) = false := by
    simp only [beq_eq_false_iff_ne, ne_eq]
    exact h0
  simp [reloadFromStore, ChatService.construct, ChatService.saveChats, hload,
    map_chats_roundtrip, hb]

/-- C8: appending a sequence of messages to an existing thread through the
service, saving the store (saveChats, via Chat.toJSON) and reloading a
service from the persisted snapshot (loadChats, via the Chat constructor)
reproduces the chat map exactly, and the thread then holds its original
messages followed by the appended ones, in order. -/
theorem chat_save_reload_roundtrip (sys : Sys) (tid : String) (c : Chat)
    (h : lookupA tid sys.chats = some c) (ms : List Message) (now now2 : Int)
    (cid mid : String) :
    (reloadFromStore cid mid now2
        (ChatService.saveChats (appendThrough now tid ms sys))).chats
      = (appendThrough now tid ms sys).chats
    ∧ ∃ c', lookupA tid (appendThrough now tid ms sys).chats = some c'
        ∧ c'.messages = c.messages ++ ms := by
  obtain ⟨c', h1, h2⟩ := appendThrough_lookup now tid ms sys c h
  exact ⟨reload_saveChats cid mid now2 _ (lookupA_ne_nil h1), ⟨c', h1, h2⟩⟩

/-- Witness for C8: appending one user message to the fixture thread and
reloading from the persisted snapshot reproduces the thread. -/
theorem chat_save_reload_roundtrip_witness :
    lookupA "t1" (sysChat DEFAULT_USER).chats = some chatFix
    ∧ (reloadFromStore "c2" "m2" 2
          (ChatService.saveChats (appendThrough 1 "t1"
            [Message.createUserMessage "u1" 1 "hi" none] (sysChat DEFAULT_USER)))).chats
        = (appendThrough 1 "t1"
            [Message.createUserMessage "u1" 1 "hi" none] (sysChat DEFAULT_USER)).chats
    ∧ ∃ c', lookupA "t1" (appendThrough 1 "t1"
            [Message.createUserMessage "u1" 1 "hi" none] (sysChat DEFAULT_USER)).chats
          = some c'
        ∧ c'.messages = chatFix.messages ++ [Message.createUserMessage "u1" 1 "hi" none] := by
  have h : lookupA "t1" (sysChat DEFAULT_USER).chats = some chatFix := by decide
  have hr := chat_save_reload_roundtrip (sysChat DEFAULT_USER) "t1" chatFix h
    [Message.createUserMessage "u1" 1 "hi" none] 1 2 "c2" "m2"
  exact ⟨h, hr.1, hr.2⟩

/-- C3: when the coin balance is strictly below the cost of the message's
transaction type, handleSendMessage appends exactly one new bot message (the
insufficiency notice) to the thread, leaves the balance unchanged, and makes
no call to the detection gateway. -/
theorem sendMessage_insufficient_balance (cfg : UsageCost) (uid pid bid : String)
    (now : Int) (outcome : DetectOutcome) (chatId inputText : String)
    (img : Option String) (sys : Sys) (c : Chat)
    (hthread : lookupA chatId sys.chats = some c)
    (hinput : ¬ (inputText.trim = "" ∧ img = none))
    (hbal : sys.user.coinBalance
        < UserBalanceService.getTransactionCost cfg (ChatBot.transactionTypeFor img)) :
    (ChatBot.handleSendMessage cfg uid pid bid now outcome chatId inputText img sys).2
        = 0
    ∧ (ChatBot.handleSendMessage cfg uid pid bid now outcome chatId inputText img sys).1.user
        = sys.user
    ∧ lookupA chatId
        (ChatBot.handleSendMessage cfg uid pid bid now outcome chatId inputText img sys).1.chats
        = some (c.addMessage now (Message.createBotMessage bid now
            (ChatBot.insufficientText (ChatBot.costFor cfg img) sys.user.coinBalance) none))
    ∧ (c.addMessage now (Message.createBotMessage bid now
          (ChatBot.insufficientText (ChatBot.costFor cfg img) sys.user.coinBalance) none)).messages
        = c.messages ++ [Message.createBotMessage bid now
            (ChatBot.insufficientText (ChatBot.costFor cfg img) sys.user.coinBalance) none]
    ∧ (Message.createBotMessage bid now
          (ChatBot.insufficientText (ChatBot.costFor cfg img) sys.user.coinBalance) none).type
        = MsgType.bot := by
  have hca : UserBalanceService.canAffordTransaction cfg
      (ChatBot.transactionTypeFor img) sys = false := by
    simp only [UserBalanceService.canAffordTransaction, UserBalanceService.hasCoinBalance,
      decide_eq_false_iff_not]
    exact not_le.mpr hbal
  refine ⟨?_, ?_, ?_, rfl, rfl⟩
  · simp [ChatBot.handleSendMessage, hinput, hca, ChatService.addMessage, hthread,
      ChatService.saveChats]
  · simp [ChatBot.handleSendMessage, hinput, hca, ChatService.addMessage, hthread,
      ChatService.saveChats]
  · simp [ChatBot.handleSendMessage, hinput, hca, ChatService.addMessage, hthread,
      ChatService.saveChats, lookupA_updateA_self]

/-- Witness for C3: balance 0.05 against the generation cost 0.5 for an
image message: the debit fails, exactly one insufficiency bot message is
appended, the balance is untouched and no gateway call happens. -/
theorem sendMessage_insufficient_balance_witness :
    lookupA "t1" (sysChat { tokenBalance := 0, coinBalance := 0.05 }).chats
        = some chatFix
    ∧ (sysChat { tokenBalance := 0, coinBalance := 0.05 }).user.coinBalance
        < UserBalanceService.getTransactionCost defaultUsageCost
            (ChatBot.transactionTypeFor (some "img"))
    ∧ (ChatBot.handleSendMessage defaultUsageCost "u1" "p1" "b1" 3 (.err "boom")
          "t1" "hi" (some "img")
          (sysChat { tokenBalance := 0, coinBalance := 0.05 })).2 = 0
    ∧ (ChatBot.handleSendMessage defaultUsageCost "u1" "p1" "b1" 3 (.err "boom")
          "t1" "hi" (some "img")
          (sysChat { tokenBalance := 0, coinBalance := 0.05 })).1.user
        = (sysChat { tokenBalance := 0, coinBalance := 0.05 }).user := by
  have h1 : lookupA "t1" (sysChat { tokenBalance := 0, coinBalance := 0.05 }).chats
      = some chatFix := by decide
  have h2 : ¬ (("hi" : String).trim = "" ∧ (some "img" : Option String) = none) := by
    simp
  have hgen : ¬ (("generation" : String) = "prompt") := by decide
  have h3 : (sysChat { tokenBalance := 0, coinBalance := 0.05 }).user.coinBalance
      < UserBalanceService.getTransactionCost defaultUsageCost
          (ChatBot.transactionTypeFor (some "img")) := by
    norm_num [sysChat, sysEmpty, UserBalanceService.getTransactionCost,
      ChatBot.transactionTypeFor, defaultUsageCost, hgen]
  have hr := sendMessage_insufficient_balance defaultUsageCost "u1" "p1" "b1" 3
    (.err "boom") "t1" "hi" (some "img")
    (sysChat { tokenBalance := 0, coinBalance := 0.05 }) chatFix h1 h2 h3
  exact ⟨h1, h3, hr.1, hr.2.1⟩

/-
Claim C4 machinery: removing the placeholder hits exactly the placeholder
when its id is fresh.
-/

theorem removeFirstMsg_append (pid : String) :
    ∀ (ms rest : List Message), (∀ m ∈ ms, m.id ≠ pid) →
      removeFirstMsg pid (ms ++ rest)
        = (ms ++ (removeFirstMsg pid rest).1, (removeFirstMsg pid rest).2) := by
  intro ms
  induction ms with
  | nil => intro rest _; simp
  | cons m ms ih =>
      intro rest h
      have hm : m.id ≠ pid := h m (List.mem_cons_self m ms)
      simp [removeFirstMsg, hm,
        ih rest (fun x hx => h x (List.mem_cons_of_mem m hx))]

/-- C4: when the debit succeeds and the detection-gateway call then fails,
handleSendMessage leaves the thread with its previous messages plus the
user's message and exactly one failure-notice bot message, no message with
processing = true remains, and the balance stays decreased by the debited
generation cost — no refund is applied.  The fresh placeholder id and the
absence of prior in-flight placeholders are hypotheses matching the source's
unique-id contract. -/
theorem sendMessage_gateway_failure (cfg : UsageCost) (uid pid bid : String)
    (now : Int) (emsg : String) (chatId inputText p : String) (sys : Sys) (c : Chat)
    (hthread : lookupA chatId sys.chats = some c)
    (hcost : 0 < cfg.generation)
    (hbal : cfg.generation ≤ sys.user.coinBalance)
    (hfresh : ∀ m ∈ c.messages, m.id ≠ pid)
    (hid : uid ≠ pid)
    (hnoproc : ∀ m ∈ c.messages, m.isProcessing = false) :
    (ChatBot.handleSendMessage cfg uid pid bid now (.err emsg) chatId inputText
        (some p) sys).2 = 1
    ∧ (ChatBot.handleSendMessage cfg uid pid bid now (.err emsg) chatId inputText
        (some p) sys).1.user.coinBalance
        = sys.user.coinBalance - cfg.generation
    ∧ lookupA chatId (ChatBot.handleSendMessage cfg uid pid bid now (.err emsg)
        chatId inputText (some p) sys).1.chats
        = some { id := c.id, title := c.title,
                 messages := c.messages ++
                   [Message.createUserMessage uid now
                      (ChatBot.userContentFor inputText) (some p),
                    Message.createBotMessage bid now (ChatBot.errorText emsg) none],
                 lastUpdate := now }
    ∧ ∀ m ∈ c.messages ++
          [Message.createUserMessage uid now (ChatBot.userContentFor inputText) (some p),
           Message.createBotMessage bid now (ChatBot.errorText emsg) none],
        m.isProcessing = false := by
  have hg : ¬ (inputText.trim = "" ∧ (some p : Option String) = none) := by simp
  have hgen : ¬ (("generation" : String) = "prompt") := by decide
  have hct : UserBalanceService.getTransactionCost cfg "generation"
      = cfg.generation := by
    simp [UserBalanceService.getTransactionCost, hgen]
  have hca : UserBalanceService.canAffordTransaction cfg "generation" sys = true := by
    simp only [UserBalanceService.canAffordTransaction,
      hct, UserBalanceService.hasCoinBalance, decide_eq_true_eq]
    exact hbal
  have hn1 : ¬ cfg.generation ≤ 0 := not_le.mpr hcost
  have hn2 : ¬ sys.user.coinBalance < cfg.generation := not_lt.mpr hbal
  have hrem : removeFirstMsg pid
      (c.messages ++
        [Message.createUserMessage uid now (ChatBot.userContentFor inputText) (some p),
         Message.createBotMessage pid now "Analyzing..." (some true)])
      = (c.messages ++
          [Message.createUserMessage uid now (ChatBot.userContentFor inputText) (some p)],
         true) := by
    rw [removeFirstMsg_append pid c.messages _ hfresh]
    simp [removeFirstMsg, Message.createUserMessage, Message.createBotMessage, hid]
  have hproc : ∀ m ∈ c.messages ++
      [Message.createUserMessage uid now (ChatBot.userContentFor inputText) (some p),
       Message.createBotMessage bid now (ChatBot.errorText emsg) none],
      m.isProcessing = false := by
    intro m hm
    rcases List.mem_append.mp hm with h | h
    · exact hnoproc m h
    · rcases List.mem_cons.mp h with h1 | h2
      · rw [h1]; rfl
      · rcases List.mem_cons.mp h2 with h3 | h4
        · rw [h3]; rfl
        · exact absurd h4 (List.not_mem_nil m)
  refine ⟨?_, ?_, ?_, hproc⟩
  · simp [ChatBot.handleSendMessage, hg, hca, ChatBot.transactionTypeFor,
      UserBalanceService.processTransaction, UserBalanceService.hasCoinBalance,
      hct, hbal, UserBalanceService.consumeCoins, hn1, hn2,
      ChatBot.processUserMessage, ChatService.addMessage, ChatService.saveChats,
      ChatService.deleteMessage, lookupA_updateA_self, hthread,
      Chat.removeMessage, Chat.addMessage, hrem]
  · simp [ChatBot.handleSendMessage, hg, hca, ChatBot.transactionTypeFor,
      UserBalanceService.processTransaction, UserBalanceService.hasCoinBalance,
      hct, hbal, UserBalanceService.consumeCoins, hn1, hn2,
      ChatBot.processUserMessage, ChatService.addMessage, ChatService.saveChats,
      ChatService.deleteMessage, lookupA_updateA_self, hthread,
      Chat.removeMessage, Chat.addMessage, hrem]
  · simp [ChatBot.handleSendMessage, hg, hca, ChatBot.transactionTypeFor,
      UserBalanceService.processTransaction, UserBalanceService.hasCoinBalance,
      hct, hbal, UserBalanceService.consumeCoins, hn1, hn2,
      ChatBot.processUserMessage, ChatService.addMessage, ChatService.saveChats,
      ChatService.deleteMessage, lookupA_updateA_self, hthread,
      Chat.removeMessage, Chat.addMessage, hrem]

/-- Witness for C4: default balance 500 and generation cost 0.5, an image
message whose gateway call fails with a network error: one gateway call was
made and the balance stays decreased by 0.5. -/
theorem sendMessage_gateway_failure_witness :
    lookupA "t1" (sysChat DEFAULT_USER).chats = some chatFix
    ∧ (0 : Num) < defaultUsageCost.generation
    ∧ defaultUsageCost.generation ≤ (sysChat DEFAULT_USER).user.coinBalance
    ∧ (ChatBot.handleSendMessage defaultUsageCost "u1" "p1" "b1" 9
        (.err "network down") "t1" "" (some "img") (sysChat DEFAULT_USER)).2 = 1
    ∧ (ChatBot.handleSendMessage defaultUsageCost "u1" "p1" "b1" 9
        (.err "network down") "t1" "" (some "img") (sysChat DEFAULT_USER)).1.user.coinBalance
        = (sysChat DEFAULT_USER).user.coinBalance - defaultUsageCost.generation := by
  have h1 : lookupA "t1" (sysChat DEFAULT_USER).chats = some chatFix := by decide
  have h2 : (0 : Num) < defaultUsageCost.generation := by
    norm_num [defaultUsageCost]
  have h3 : defaultUsageCost.generation ≤ (sysChat DEFAULT_USER).user.coinBalance := by
    norm_num [defaultUsageCost, sysChat, sysEmpty, DEFAULT_USER]
  have h4 : ∀ m ∈ chatFix.messages, m.id ≠ "p1" := by decide
  have h5 : ("u1" : String) ≠ "p1" := by decide
  have h6 : ∀ m ∈ chatFix.messages, m.isProcessing = false := by decide
  have hr := sendMessage_gateway_failure defaultUsageCost "u1" "p1" "b1" 9
    "network down" "t1" "" "img" (sysChat DEFAULT_USER) chatFix h1 h2 h3 h4 h5 h6
  exact ⟨h1, h2, h3, hr.1, hr.2.1⟩

/-
EventManager registry lemmas for C6 and C10.  A real JS Map has unique keys;
the association-list model carries this as a Nodup hypothesis on the key
list where an operation's behaviour depends on it.
-/

theorem lookupA_append_none {α : Type} {k : String} {l : List (String × α)}
    (h : lookupA k l = none) (l' : List (String × α)) :
    lookupA k (l ++ l') = lookupA k l' := by
  induction l with
  | nil => simp
  | cons p rest ih =>
      by_cases hp : p.1 = k
      · simp [lookupA, hp] at h
      · simp only [lookupA, hp, if_false] at h ⊢
        exact ih h

theorem lookupA_none_of_not_mem {α : Type} {k : String} :
    ∀ {l : List (String × α)}, k ∉ l.map Prod.fst → lookupA k l = none := by
  intro l
  induction l with
  | nil => intro _; rfl
  | cons p rest ih =>
      intro h
      have hp : p.1 ≠ k := by
        intro he
        exact h (by simp [he])
      simp only [lookupA, hp, if_false]
      exact ih (fun hm => h (by simp [hm]))

theorem not_mem_of_lookupA_none {α : Type} {k : String} :
    ∀ {l : List (String × α)}, lookupA k l = none → k ∉ l.map Prod.fst := by
  intro l
  induction l with
  | nil => intro _ hm; cases hm
  | cons p rest ih =>
      intro hnone hmem
      by_cases hp : p.1 = k
      · simp [lookupA, hp] at hnone
      · simp only [lookupA, hp, if_false] at hnone
        simp only [List.map_cons, List.mem_cons] at hmem
        rcases hmem with hm | hm
        · exact hp hm.symm
        · exact ih hnone hm

theorem keys_updateA {α : Type} (k : String) (f : α → α) :
    ∀ l : List (String × α), (updateA k f l).map Prod.fst = l.map Prod.fst := by
  intro l
  induction l with
  | nil => rfl
  | cons p rest ih =>
      by_cases hp : p.1 = k
      · simp [updateA, hp]
      · simp [updateA, hp, ih]

theorem lookupA_removeA_self {α : Type} {k : String} :
    ∀ {l : List (String × α)}, (l.map Prod.fst).Nodup →
      lookupA k (removeA k l) = none := by
  intro l
  induction l with
  | nil => intro _; rfl
  | cons p rest ih =>
      intro hnd
      rcases List.nodup_cons.mp hnd with ⟨hhead, htail⟩
      by_cases hp : p.1 = k
      · simp only [removeA, hp, if_true]
        subst hp
        exact lookupA_none_of_not_mem hhead
      · simp only [removeA, hp, if_false, lookupA]
        exact ih htail

theorem addListener_keys_nodup (e : String) (h : Handler)
    (st : EventManagerState) (hnd : (st.listeners.map Prod.fst).Nodup) :
    (((EventManager.addListener e h st).listeners.map Prod.fst)).Nodup := by
  unfold EventManager.addListener
  cases hl : lookupA e st.listeners with
  | some hs => simpa [keys_updateA] using hnd
  | none =>
      have he : e ∉ st.listeners.map Prod.fst := not_mem_of_lookupA_none hl
      simp only [List.map_append]
      exact List.Nodup.append hnd (by simp) (by
        intro a ha hb
        simp at hb
        subst hb
        exact he ha)

theorem mem_handlersOf_addListener (e : String) (h : Handler)
    (st : EventManagerState) :
    h ∈ EventManager.handlersOf e (EventManager.addListener e h st) := by
  unfold EventManager.addListener EventManager.handlersOf
  cases hl : lookupA e st.listeners with
  | none =>
      rw [lookupA_append_none hl]
      simp [lookupA]
  | some hs =>
      simp only [lookupA_updateA_self, hl, Option.map_some, Option.getD_some]
      by_cases hm : h ∈ hs
      · simp [hm]
      · simp [hm]

theorem emit_fired (throws : Nat → Bool) (e : String) (st : EventManagerState) :
    (EventManager.emit throws e st).2 = EventManager.handlersOf e st := by
  unfold EventManager.emit EventManager.handlersOf
  cases hl : lookupA e st.listeners <;> simp

theorem filter_length_lt_of_mem_not {α : Type} (p : α → Bool) :
    ∀ (l : List α) (a : α), a ∈ l → p a = false → (l.filter p).length < l.length := by
  intro l
  induction l with
  | nil => intro a ha; cases ha
  | cons x xs ih =>
      intro a ha hp
      rcases List.mem_cons.mp ha with rfl | hmem
      · rw [List.filter_cons, hp]
        exact Nat.lt_succ_of_le (List.length_filter_le p xs)
      · cases hx : p x
        · rw [List.filter_cons, hx]
          exact Nat.lt_succ_of_le (List.length_filter_le p xs)
        · rw [List.filter_cons, hx]
          simpa using Nat.succ_lt_succ (ih a hmem hp)

theorem not_handlersOf_emit_of_not_survives (throws : Nat → Bool) (e : String)
    (st : EventManagerState) (w : Handler)
    (hnd : (st.listeners.map Prod.fst).Nodup)
    (hw : w ∈ EventManager.handlersOf e st)
    (hsur : Handler.survivesEmit throws w = false) :
    w ∉ EventManager.handlersOf e (EventManager.emit throws e st).1 := by
  unfold EventManager.emit
  cases hl : lookupA e st.listeners with
  | none =>
      unfold EventManager.handlersOf at hw
      rw [hl] at hw
      cases hw
  | some hs =>
      have hwhs : w ∈ hs := by
        unfold EventManager.handlersOf at hw
        rwa [hl, Option.getD_some] at hw
      have hlt := filter_length_lt_of_mem_not (Handler.survivesEmit throws) hs w
        hwhs hsur
      have hne : ((hs.filter (Handler.survivesEmit throws)).length == hs.length)
          = false := by
        simp only [beq_eq_false_iff_ne, ne_eq]
        exact Nat.ne_of_lt hlt
      simp only [hne, Bool.false_eq_true, if_false]
      by_cases hemp : (hs.filter (Handler.survivesEmit throws)).isEmpty
      · simp only [hemp, if_true]
        unfold EventManager.handlersOf
        rw [lookupA_removeA_self hnd]
        simp
      · simp only [hemp, Bool.false_eq_true, if_false]
        unfold EventManager.handlersOf
        simp only [lookupA_updateA_self, hl, Option.map_some, Option.getD_some]
        intro hmem
        have := List.of_mem_filter hmem
        rw [hsur] at this
        cases this

/-- C6 counterexample: a once handler whose callback throws is invoked by
the first emit, but emit's try/catch swallows the exception before the
wrapper's self-unsubscribe runs — the wrapper is still registered after the
first publish and is invoked again by the second, so the claim that every
once handler is deregistered by the first publish that invokes it is false
for this input. -/
theorem once_throwing_callback_stays_registered_cex :
    Handler.onceWrap 0 7
        ∈ (EventManager.emit throwsAll "evt" (EventManager.once "evt" 0 7 ⟨[]⟩).2).2
    ∧ Handler.onceWrap 0 7
        ∈ EventManager.handlersOf "evt"
            (EventManager.emit throwsAll "evt" (EventManager.once "evt" 0 7 ⟨[]⟩).2).1
    ∧ Handler.onceWrap 0 7
        ∈ (EventManager.emit throwsAll "evt"
            (EventManager.emit throwsAll "evt"
              (EventManager.once "evt" 0 7 ⟨[]⟩).2).1).2 := by
  refine ⟨by decide, by decide, by decide⟩

/-- C6 amended: a handler registered through once whose callback returns
normally when invoked is removed by the first emit that invokes it — the
wrapper fires in the first publish, is no longer registered afterwards, and
a subsequent publish of the same event does not invoke it again.  When the
callback throws, the wrapper instead stays registered, because emit's
try/catch fires before the wrapper's self-unsubscribe. -/
theorem once_nonthrowing_auto_unsubscribes (st : EventManagerState) (e : String)
    (tag cb : Nat) (throws : Nat → Bool)
    (hnd : (st.listeners.map Prod.fst).Nodup)
    (hnothrow : throws cb = false) :
    Handler.onceWrap tag cb
        ∈ (EventManager.emit throws e (EventManager.once e tag cb st).2).2
    ∧ Handler.onceWrap tag cb
        ∉ EventManager.handlersOf e
            (EventManager.emit throws e (EventManager.once e tag cb st).2).1
    ∧ Handler.onceWrap tag cb
        ∉ (EventManager.emit throws e
            (EventManager.emit throws e (EventManager.once e tag cb st).2).1).2 := by
  have hmem : Handler.onceWrap tag cb
      ∈ EventManager.handlersOf e (EventManager.once e tag cb st).2 :=
    mem_handlersOf_addListener e _ st
  have hnd1 : (((EventManager.once e tag cb st).2).listeners.map Prod.fst).Nodup :=
    addListener_keys_nodup e _ st hnd
  have hsur : Handler.survivesEmit throws (Handler.onceWrap tag cb) = false := by
    simp [Handler.survivesEmit, hnothrow]
  have hgone := not_handlersOf_emit_of_not_survives throws e
    (EventManager.once e tag cb st).2 (Handler.onceWrap tag cb) hnd1 hmem hsur
  refine ⟨?_, hgone, ?_⟩
  · rw [emit_fired]
    exact hmem
  · rw [emit_fired]
    exact hgone

/-- Witness for the amended C6: a once-subscription whose callback returns
normally fires on the first emit of a fresh manager and is gone from the
second. -/
theorem once_nonthrowing_auto_unsubscribes_witness :
    ((⟨[]⟩ : EventManagerState).listeners.map Prod.fst).Nodup
    ∧ throwsNone 7 = false
    ∧ Handler.onceWrap 0 7
        ∈ (EventManager.emit throwsNone "evt" (EventManager.once "evt" 0 7 ⟨[]⟩).2).2
    ∧ Handler.onceWrap 0 7
        ∉ (EventManager.emit throwsNone "evt"
            (EventManager.emit throwsNone "evt"
              (EventManager.once "evt" 0 7 ⟨[]⟩).2).1).2 := by
  have h := once_nonthrowing_auto_unsubscribes ⟨[]⟩ "evt" 0 7 throwsNone
    (by decide) (by decide)
  exact ⟨by decide, by decide, h.1, h.2.2⟩

theorem handlersOf_addListener (e : String) (h : Handler) (st : EventManagerState) :
    EventManager.handlersOf e (EventManager.addListener e h st)
      = (if h ∈ EventManager.handlersOf e st then EventManager.handlersOf e st
         else EventManager.handlersOf e st ++ [h]) := by
  unfold EventManager.addListener EventManager.handlersOf
  cases hl : lookupA e st.listeners with
  | none =>
      rw [lookupA_append_none hl]
      simp [lookupA]
  | some hs =>
      simp only [lookupA_updateA_self, hl, Option.map_some, Option.getD_some]
      by_cases hm : h ∈ hs
      · simp [hm]
      · simp [hm]

theorem lookupA_addListener_self (e : String) (h : Handler) (st : EventManagerState) :
    lookupA e (EventManager.addListener e h st).listeners
      = some (EventManager.handlersOf e (EventManager.addListener e h st)) := by
  unfold EventManager.addListener EventManager.handlersOf
  cases hl : lookupA e st.listeners with
  | none =>
      rw [lookupA_append_none hl]
      simp [lookupA]
  | some hs =>
      simp [lookupA_updateA_self, hl]

/-- C10: registering the same callback twice for the same event creates a
single registration — the two returned unsubscribe capabilities are the same
capability, a publish invokes the handler exactly once (whatever the
callbacks' throwing behaviour), and applying the capability removes the
handler entirely. -/
theorem on_duplicate_single_registration (st : EventManagerState) (e : String)
    (cb : Nat) (throws : Nat → Bool)
    (hnd : (st.listeners.map Prod.fst).Nodup)
    (hreg : Handler.plain cb ∉ EventManager.handlersOf e st) :
    (EventManager.onEvent e cb st).1
        = (EventManager.onEvent e cb (EventManager.onEvent e cb st).2).1
    ∧ (EventManager.handlersOf e
          (EventManager.onEvent e cb (EventManager.onEvent e cb st).2).2).count
        (Handler.plain cb) = 1
    ∧ ((EventManager.emit throws e
          (EventManager.onEvent e cb (EventManager.onEvent e cb st).2).2).2).count
        (Handler.plain cb) = 1
    ∧ Handler.plain cb
        ∉ EventManager.handlersOf e
            (EventManager.applyUnsubscribe (EventManager.onEvent e cb st).1
              (EventManager.onEvent e cb (EventManager.onEvent e cb st).2).2) := by
  have hnd2 : (((EventManager.onEvent e cb
      (EventManager.onEvent e cb st).2).2).listeners.map Prod.fst).Nodup :=
    addListener_keys_nodup e _ _ (addListener_keys_nodup e _ st hnd)
  have hL1 : EventManager.handlersOf e (EventManager.onEvent e cb st).2
      = EventManager.handlersOf e st ++ [Handler.plain cb] := by
    show EventManager.handlersOf e (EventManager.addListener e (.plain cb) st) = _
    rw [handlersOf_addListener]
    simp [hreg]
  have hL2 : EventManager.handlersOf e
      (EventManager.onEvent e cb (EventManager.onEvent e cb st).2).2
      = EventManager.handlersOf e st ++ [Handler.plain cb] := by
    show EventManager.handlersOf e
        (EventManager.addListener e (.plain cb) (EventManager.onEvent e cb st).2) = _
    rw [handlersOf_addListener, hL1]
    simp
  have hcount : (EventManager.handlersOf e st ++ [Handler.plain cb]).count
      (Handler.plain cb) = 1 := by
    rw [List.count_append, List.count_eq_zero.mpr hreg]
    simp
  have hfil : (EventManager.handlersOf e st ++ [Handler.plain cb]).filter
      (fun h => h ≠ Handler.plain cb) = EventManager.handlersOf e st := by
    rw [List.filter_append]
    have h1 : (EventManager.handlersOf e st).filter (fun h => h ≠ Handler.plain cb)
        = EventManager.handlersOf e st := by
      apply List.filter_eq_self.mpr
      intro a ha
      simp only [ne_eq, decide_not, Bool.not_eq_eq_eq_not, Bool.not_true,
        decide_eq_false_iff_not]
      intro he
      rw [he] at ha
      exact hreg ha
    rw [h1]
    simp
  have hlk : lookupA e
      ((EventManager.onEvent e cb (EventManager.onEvent e cb st).2).2).listeners
      = some (EventManager.handlersOf e st ++ [Handler.plain cb]) := by
    rw [← hL2]
    exact lookupA_addListener_self e _ _
  refine ⟨rfl, by rw [hL2]; exact hcount, by rw [emit_fired, hL2]; exact hcount, ?_⟩
  rw [show (EventManager.onEvent e cb st).1
      = (⟨e, Handler.plain cb⟩ : Unsubscribe) from rfl]
  unfold EventManager.applyUnsubscribe
  dsimp only
  simp only [hlk, hfil]
  by_cases hemp : (EventManager.handlersOf e st).isEmpty
  · rw [if_pos hemp]
    unfold EventManager.handlersOf
    rw [lookupA_removeA_self hnd2]
    simp
  · rw [if_neg hemp]
    unfold EventManager.handlersOf
    simp only [lookupA_updateA_self, hlk, Option.map_some, Option.getD_some]
    exact hreg

/-- Witness for C10: double-registering callback 7 on a fresh manager yields
one registration, one invocation per publish, and its removal by the
returned capability. -/
theorem on_duplicate_single_registration_witness :
    ((⟨[]⟩ : EventManagerState).listeners.map Prod.fst).Nodup
    ∧ Handler.plain 7 ∉ EventManager.handlersOf "evt" (⟨[]⟩ : EventManagerState)
    ∧ (EventManager.handlersOf "evt"
          (EventManager.onEvent "evt" 7
            (EventManager.onEvent "evt" 7 (⟨[]⟩ : EventManagerState)).2).2).count
        (Handler.plain 7) = 1
    ∧ Handler.plain 7
        ∉ EventManager.handlersOf "evt"
            (EventManager.applyUnsubscribe
              (EventManager.onEvent "evt" 7 (⟨[]⟩ : EventManagerState)).1
              (EventManager.onEvent "evt" 7
                (EventManager.onEvent "evt" 7 (⟨[]⟩ : EventManagerState)).2).2) := by
  have h := on_duplicate_single_registration ⟨[]⟩ "evt" 7 throwsNone
    (by decide) (by decide)
  exact ⟨by decide, by decide, h.2.1, h.2.2.2⟩

/-
Claim C5: the wallet-switch path versus the spec's per-owner balance
scoping.
-/

theorem lookupA_setA_ne {α : Type} {k k' : String} (h : k' ≠ k) (v : α) :
    ∀ l : List (String × α), lookupA k (setA k' v l) = lookupA k l := by
  intro l
  induction l with
  | nil => simp [setA, lookupA, h]
  | cons p rest ih =>
      by_cases hp : p.1 = k'
      · by_cases hk : p.1 = k
        · exact absurd (hp ▸ hk) h
        · simp [setA, hp, lookupA, h, hk]
      · simp [setA, hp, lookupA, ih]

/-- C5 counterexample: with both owners holding distinct spec-style
persisted balances (A: 100, B: 200) and owner A connected with balance 100,
switching the wallet to owner B leaves the observable coin balance at 100 —
the previous owner's in-memory value — not the 200 persisted for the new
owner; the code's own balance entry (`user_data`) still holds A's user, so
the claim that the post-switch balance equals the value persisted under the
new owner's storage key is false for this input. -/
theorem wallet_switch_not_owner_scoped_cex :
    (WalletService.handleAccountsChanged ["0xB"] sysTwoOwners).user.coinBalance = 100
    ∧ specOwnerCoinBalance "0xB"
        (WalletService.handleAccountsChanged ["0xB"] sysTwoOwners).store = some 200
    ∧ StorageManager.loadUser
        (WalletService.handleAccountsChanged ["0xB"] sysTwoOwners).store
        = { tokenBalance := 1000, coinBalance := 100 }
    ∧ ¬ ((WalletService.handleAccountsChanged ["0xB"] sysTwoOwners).user.coinBalance
          = 200) := by
  refine ⟨by decide, by decide, by decide, by decide⟩

/-- C5 amended: the balance storage key is owner-independent (`user_data`),
and a wallet switch (handleAccountsChanged with a new account) changes only
the wallet account and the persisted wallet address: the ledger's in-memory
user, the persisted `user_data` entry, and hence the observable balance all
carry over from the previous owner unchanged. -/
theorem wallet_switch_carries_over_balance (sys : Sys) (a : String)
    (h : sys.account ≠ some a) :
    (WalletService.handleAccountsChanged [a] sys).user = sys.user
    ∧ lookupA StorageManager.USER_DATA
        (WalletService.handleAccountsChanged [a] sys).store
        = lookupA StorageManager.USER_DATA sys.store
    ∧ StorageManager.loadUser (WalletService.handleAccountsChanged [a] sys).store
        = StorageManager.loadUser sys.store
    ∧ (WalletService.handleAccountsChanged [a] sys).account = some a
    ∧ lookupA StorageManager.WALLET_ADDRESS
        (WalletService.handleAccountsChanged [a] sys).store
        = some (.strVal a) := by
  have hku : StorageManager.WALLET_ADDRESS ≠ StorageManager.USER_DATA := by decide
  have hud : lookupA StorageManager.USER_DATA
      (WalletService.handleAccountsChanged [a] sys).store
      = lookupA StorageManager.USER_DATA sys.store := by
    simp only [WalletService.handleAccountsChanged, h, if_true,
      StorageManager.saveWalletAddress, ne_eq, not_false_eq_true]
    exact lookupA_setA_ne hku _ sys.store
  refine ⟨?_, hud, ?_, ?_, ?_⟩
  · simp [WalletService.handleAccountsChanged, h]
  · unfold StorageManager.loadUser
    rw [hud]
  · simp [WalletService.handleAccountsChanged, h]
  · simp [WalletService.handleAccountsChanged, h, StorageManager.saveWalletAddress,
      lookupA_setA_self]

/-- Witness for the amended C5: switching from owner A to owner B in the
two-owner fixture keeps balance 100 in memory and in `user_data`, while the
account and persisted wallet address become B. -/
theorem wallet_switch_carries_over_balance_witness :
    sysTwoOwners.account ≠ some "0xB"
    ∧ (WalletService.handleAccountsChanged ["0xB"] sysTwoOwners).user
        = sysTwoOwners.user
    ∧ (WalletService.handleAccountsChanged ["0xB"] sysTwoOwners).account
        = some "0xB"
    ∧ StorageManager.loadUser
        (WalletService.handleAccountsChanged ["0xB"] sysTwoOwners).store
        = StorageManager.loadUser sysTwoOwners.store := by
  have h : sysTwoOwners.account ≠ some "0xB" := by decide
  have hr := wallet_switch_carries_over_balance sysTwoOwners "0xB" h
  exact ⟨h, hr.1, hr.2.2.2.1, hr.2.2.1⟩

end ImgProc
